import Mathlib

/-!
Verification development for the crewai_log_parser repository.

The Python sources are shallowly embedded: pure functions become Lean
functions over `List Char` / `String`, the segmentation loops become
explicit state passing, and Python exceptions become `Except String`
results.  Machine floats of the source are modelled as rationals (the cost
rates are exact decimal literals), and Python dictionaries carrying JSON
data are modelled as association lists.  Each definition cites the source
file and line range it embeds.
-/

/-! ## Basic character and string utilities shared by the embeddings -/

/-- Python whitespace class for the `\s` regex atom (ASCII part):
space, tab, newline, carriage return, form feed, vertical tab. -/
def isPySpace (c : Char) : Bool :=
  c = ' ' || c = '\t' || c = '\n' || c = '\x0d' || c = '\x0c' || c = '\x0b'

/-- Decimal value of a digit character. -/
def digitVal (c : Char) : Nat := c.toNat - 48

/-- Numeric value of a list of decimal digit characters (Python `int(...)`). -/
def natOfDigits (ds : List Char) : Nat :=
  ds.foldl (fun acc c => 10 * acc + digitVal c) 0

/-- Substring containment over character lists, the embedding of the Python
`needle in haystack` test on strings. -/
def containsSubList (pat : List Char) : List Char → Bool
  | [] => pat.isEmpty
  | c :: rest => pat.isPrefixOf (c :: rest) || containsSubList pat rest

/-- Substring containment on `String`, Python `pat in s`. -/
def containsSub (s pat : String) : Bool := containsSubList pat.toList s.toList

/-- Generic leftmost regex-search driver: try a position matcher on every
suffix of the text, left to right, and return the first success.  This is
the embedding of `re.search` leftmost-match semantics for the concrete
patterns used by the source. -/
def searchFirst {α : Type} (f : List Char → Option α) : List Char → Option α
  | [] => f []
  | c :: rest =>
    match f (c :: rest) with
    | some a => some a
    | none => searchFirst f rest

/-- Consume a literal at the head of the text, returning the remainder. -/
def matchLit (pat s : List Char) : Option (List Char) :=
  if pat.isPrefixOf s then some (s.drop pat.length) else none

/-- Position of the remainder of `s` after the first occurrence of `pat`,
or `none` when `pat` does not occur in `s`. -/
def dropAfterFirst (pat : List Char) (s : List Char) : Option (List Char) :=
  searchFirst (fun suf => matchLit pat suf) s

/-- Lazy capture `(.*?)` running up to the first occurrence of `stop`
(or to the end of text when `stop` never occurs), with `re.DOTALL` in
force: the embedding of the `(.*?)(?:STOP|$)` capture shape. -/
def captureUpTo (stop : List Char) : List Char → List Char
  | [] => []
  | c :: rest =>
    if stop.isPrefixOf (c :: rest) then []
    else c :: captureUpTo stop rest

/-- Python `str.strip()`: remove leading and trailing whitespace. -/
def pyStrip (s : List Char) : List Char :=
  ((s.dropWhile isPySpace).reverse.dropWhile isPySpace).reverse

/-- Python `str.lower()` (ASCII part). -/
def pyLower (s : List Char) : List Char := s.map Char.toLower

/-- Python `str.split(sep)` for a one-character separator. -/
def splitOnChar (sep : Char) : List Char → List (List Char)
  | [] => [[]]
  | c :: rest =>
    let r := splitOnChar sep rest
    if c = sep then [] :: r
    else
      match r with
      | h :: t => (c :: h) :: t
      | [] => [[c]]

/-- Leftmost maximal run of decimal digits, the embedding of
`re.search(r"\d+", line)` returning the matched text value. -/
def searchDigitRun : List Char → Option Nat :=
  searchFirst (fun suf =>
    let ds := suf.takeWhile Char.isDigit
    if ds.isEmpty then none else some (natOfDigits ds))

/-- The single-quote character, used by a regex of the source. -/
def squote : Char := Char.ofNat 39

/-! ## A minimal JSON value model and parser

The source calls `json.loads` on extracted text spans.  The embedding
parses JSON values into the `Json` inductive below; numbers are rationals.
The parser is fuel-indexed (fuel = input length suffices for the nesting
depth that can occur). -/

inductive Json where
  | null : Json
  | bool (b : Bool) : Json
  | num (q : ℚ) : Json
  | str (s : String) : Json
  | arr (elems : List Json) : Json
  | obj (fields : List (String × Json)) : Json

instance : Inhabited Json := ⟨Json.null⟩

/-- JSON insignificant whitespace (the four characters `json.loads` skips). -/
def isJsonWs (c : Char) : Bool :=
  c = ' ' || c = '\t' || c = '\n' || c = '\x0d'

def skipJsonWs (s : List Char) : List Char := s.dropWhile isJsonWs

/-- Parse the body of a JSON string literal (after the opening quote),
returning the decoded characters and the remainder after the closing
quote.  Strict mode: raw control characters are rejected. -/
def parseJsonStringBody : List Char → Option (List Char × List Char)
  | [] => none
  | c :: rest =>
    if c = '"' then some ([], rest)
    else if c = '\\' then
      match rest with
      | [] => none
      | e :: rest2 =>
        let dec : Option Char :=
          if e = '"' then some '"'
          else if e = '\\' then some '\\'
          else if e = '/' then some '/'
          else if e = 'b' then some '\x08'
          else if e = 'f' then some '\x0c'
          else if e = 'n' then some '\n'
          else if e = 'r' then some '\x0d'
          else if e = 't' then some '\t'
          else none
        match dec with
        | none => none
        | some d =>
          match parseJsonStringBody rest2 with
          | none => none
          | some (tail, rem) => some (d :: tail, rem)
    else if c.toNat < 32 then none
    else
      match parseJsonStringBody rest with
      | none => none
      | some (tail, rem) => some (c :: tail, rem)

/-- Value of a JSON number from its parts: sign, integer digits, fraction
digits, exponent sign and exponent digits.  Integer-valued numbers are
built by integer casts so that concrete evaluation stays kernel-friendly. -/
def jsonNumVal (neg : Bool) (ip fp : List Char) (eneg : Bool) (ed : List Char) : ℚ :=
  let mant : Int := Int.ofNat (natOfDigits (ip ++ fp))
  let mant : Int := if neg then -mant else mant
  let e : Int := (if eneg then -(Int.ofNat (natOfDigits ed)) else Int.ofNat (natOfDigits ed))
        - Int.ofNat fp.length
  if 0 ≤ e then ((mant * 10 ^ e.toNat : Int) : ℚ)
  else mkRat mant (10 ^ (-e).toNat)

/-- Parse a JSON number at the head of the text (strict grammar: no
leading zeros, optional fraction and exponent). -/
def parseJsonNumber (s : List Char) : Option (ℚ × List Char) :=
  let (neg, s1) :=
    match s with
    | c :: rest => if c = '-' then (true, rest) else (false, s)
    | [] => (false, s)
  let ip := s1.takeWhile Char.isDigit
  let s2 := s1.drop ip.length
  if ip.isEmpty then none
  else if ip.length > 1 && ip.headD '0' = '0' then none
  else
    let (fp, s3) :=
      match s2 with
      | c :: rest =>
        if c = '.' then
          let d := rest.takeWhile Char.isDigit
          (d, rest.drop d.length)
        else ([], s2)
      | [] => ([], s2)
    if s2 ≠ s3 && fp.isEmpty then none
    else
      match s3 with
      | c :: rest =>
        if c = 'e' || c = 'E' then
          let (eneg, r2) :=
            match rest with
            | d :: more =>
              if d = '-' then (true, more)
              else if d = '+' then (false, more)
              else (false, rest)
            | [] => (false, rest)
          let ed := r2.takeWhile Char.isDigit
          if ed.isEmpty then none
          else some (jsonNumVal neg ip fp eneg ed, r2.drop ed.length)
        else some (jsonNumVal neg ip fp false [], s3)
      | [] => some (jsonNumVal neg ip fp false [], s3)

mutual

/-- Parse one JSON value (after skipping leading whitespace). -/
def parseJsonVal : Nat → List Char → Option (Json × List Char)
  | 0, _ => none
  | fuel + 1, s =>
    match skipJsonWs s with
    | [] => none
    | c :: rest =>
      if c = '{' then
        match skipJsonWs rest with
        | '}' :: rem => some (Json.obj [], rem)
        | other => parseJsonObjFields fuel other
      else if c = '[' then
        match skipJsonWs rest with
        | ']' :: rem => some (Json.arr [], rem)
        | other => parseJsonArrElems fuel other
      else if c = '"' then
        match parseJsonStringBody rest with
        | some (body, rem) => some (Json.str (String.mk body), rem)
        | none => none
      else if "true".toList.isPrefixOf (c :: rest) then
        some (Json.bool true, (c :: rest).drop 4)
      else if "false".toList.isPrefixOf (c :: rest) then
        some (Json.bool false, (c :: rest).drop 5)
      else if "null".toList.isPrefixOf (c :: rest) then
        some (Json.null, (c :: rest).drop 4)
      else
        match parseJsonNumber (c :: rest) with
        | some (q, rem) => some (Json.num q, rem)
        | none => none

/-- Parse the members of a non-empty JSON object, starting at the first
key and consuming the closing brace. -/
def parseJsonObjFields : Nat → List Char → Option (Json × List Char)
  | 0, _ => none
  | fuel + 1, s =>
    match skipJsonWs s with
    | '"' :: rest =>
      match parseJsonStringBody rest with
      | none => none
      | some (key, rem) =>
        match skipJsonWs rem with
        | ':' :: rem2 =>
          match parseJsonVal fuel rem2 with
          | none => none
          | some (v, rem3) =>
            match skipJsonWs rem3 with
            | ',' :: rem4 =>
              match parseJsonObjFields fuel rem4 with
              | some (Json.obj fields, rem5) =>
                some (Json.obj ((String.mk key, v) :: fields), rem5)
              | _ => none
            | '}' :: rem4 => some (Json.obj [(String.mk key, v)], rem4)
            | _ => none
        | _ => none
    | _ => none

/-- Parse the elements of a non-empty JSON array, consuming the closing
bracket. -/
def parseJsonArrElems : Nat → List Char → Option (Json × List Char)
  | 0, _ => none
  | fuel + 1, s =>
    match parseJsonVal fuel s with
    | none => none
    | some (v, rem) =>
      match skipJsonWs rem with
      | ',' :: rem2 =>
        match parseJsonArrElems fuel rem2 with
        | some (Json.arr elems, rem3) => some (Json.arr (v :: elems), rem3)
        | _ => none
      | ']' :: rem2 => some (Json.arr [v], rem2)
      | _ => none

end

/-- The embedding of `json.loads`: parse a complete JSON document (the
whole text must be consumed, up to trailing whitespace). -/
def jsonLoads (s : List Char) : Option Json :=
  match parseJsonVal (s.length + 1) s with
  | some (v, rem) => if (skipJsonWs rem).isEmpty then some v else none
  | none => none

/-- Python truthiness of a decoded JSON value (`if parsed:`). -/
def pyTruthy : Json → Bool
  | Json.null => false
  | Json.bool b => b
  | Json.num q => q ≠ 0
  | Json.str s => s ≠ ""
  | Json.arr l => !l.isEmpty
  | Json.obj l => !l.isEmpty

/-- First-occurrence association-list lookup, the embedding of Python
dictionary indexing and membership. -/
def lookupKey {β : Type} (k : String) : List (String × β) → Option β
  | [] => none
  | (k2, v) :: rest => if k2 = k then some v else lookupKey k rest

/-- Python `dict.get(k, default)` on a JSON object; any other receiver
raises `AttributeError` in the source, modelled as `Except.error`. -/
def pyGetD (j : Json) (k : String) (dflt : Json) : Except String Json :=
  match j with
  | Json.obj kvs => Except.ok ((lookupKey k kvs).getD dflt)
  | _ => Except.error "AttributeError"

/-- Python `x[0]` on a decoded JSON value: first element of a list (or
`IndexError`), first character of a string (or `IndexError`), `KeyError`
for a dict without integer keys, `TypeError` otherwise. -/
def pyIndex0 : Json → Except String Json
  | Json.arr [] => Except.error "IndexError"
  | Json.arr (x :: _) => Except.ok x
  | Json.str s =>
    match s.toList with
    | [] => Except.error "IndexError"
    | c :: _ => Except.ok (Json.str (String.mk [c]))
  | Json.obj _ => Except.error "KeyError"
  | _ => Except.error "TypeError"

/-- Python `needle in value` for a string needle: substring test on
strings, key test on dicts, membership test on lists, `TypeError`
otherwise. -/
def pyInStr (needle : String) : Json → Except String Bool
  | Json.str s => Except.ok (containsSubList needle.toList s.toList)
  | Json.obj kvs => Except.ok (kvs.any (fun p => p.1 = needle))
  | Json.arr l =>
    Except.ok (l.any (fun j =>
      match j with
      | Json.str s => s = needle
      | _ => false))
  | _ => Except.error "TypeError"

/-! ## Embedding of `parsers/log_parser_v2.py` -/

/-- One parsed call block of `parse_log_file_v2` (the dictionary created at
lines 199-212 of `parsers/log_parser_v2.py`).  The `cost_usd` key is only
added by a `response_cost:` line, hence an `Option`.  The
`token_usage_info` side list built by the source is derived display data
and is not modelled. -/
structure BlockV2 where
  task_hint : String := ""
  litellm_request : String := ""
  raw_response : String := ""
  thought : String := ""
  action : String := ""
  final_answer : String := ""
  parsed_usage : Json := Json.obj []
  parsing_error : Bool := false
  start_time : Option String := none
  end_time : Option String := none
  model : Option String := none
  api_errors : List String := []
  cost_usd : Option ℚ := none

/-- Shape of the leading-timestamp regex
`(\d{4}-\d{2}-\d{2} \d{2}:\d{2}:\d{2})` used with `re.match`. -/
def tsShape : List (Char → Bool) :=
  let d := Char.isDigit
  [d, d, d, d, (· = '-'), d, d, (· = '-'), d, d, (· = ' '),
   d, d, (· = ':'), d, d, (· = ':'), d, d]

def matchesShape (shape : List (Char → Bool)) (cs : List Char) : Bool :=
  decide (shape.length ≤ cs.length) && (shape.zip cs).all (fun p => p.1 p.2)

/-- Embedding of `re.match(r"(\d{4}-\d{2}-\d{2} \d{2}:\d{2}:\d{2})", line)`
(anchored at the start of the line), returning the matched text. -/
def timestampMatch (line : String) : Option String :=
  let cs := line.toList
  if matchesShape tsShape cs then some (String.mk (cs.take 19)) else none

/-- Character class `[0-9.]` of the `response_cost` regex. -/
def isFloatChar (c : Char) : Bool := c.isDigit || c = '.'

/-- Embedding of `re.search(r"response_cost:\s*([0-9.]+)", line)`,
returning the captured group text. -/
def searchCostRate : List Char → Option (List Char) :=
  searchFirst (fun suf =>
    (matchLit "response_cost:".toList suf).bind (fun r =>
      let r2 := r.dropWhile isPySpace
      let num := r2.takeWhile isFloatChar
      if num.isEmpty then none else some num))

/-- Whether Python `float(s)` succeeds on a nonempty `[0-9.]+` string:
at least one digit and at most one dot. -/
def pyFloatOk (num : List Char) : Bool :=
  num.any Char.isDigit && decide ((num.filter (· = '.')).length ≤ 1)

/-- Value of Python `float(s)` for a `[0-9.]+` string accepted by
`pyFloatOk`. -/
def pyFloatVal (num : List Char) : ℚ :=
  let ip := num.takeWhile Char.isDigit
  match num.drop ip.length with
  | '.' :: fp => (natOfDigits ip : ℚ) + mkRat (natOfDigits fp) (10 ^ fp.length)
  | _ => (natOfDigits ip : ℚ)

/-- State of the line scanning loop of `parse_log_file_v2`
(lines 180-183). -/
structure SegStateV2 where
  blocks : List BlockV2
  current : Option BlockV2
  insideRequest : Bool
  insideResponse : Bool

/-- One iteration of the segmentation loop of `parse_log_file_v2`
(lines 185-230).  The only statement of the loop that can raise is
`float(cost_match.group(1))` on a `response_cost:` line whose matched
text is not float-parseable; this surfaces as `Except.error`. -/
def segStepV2 (st : SegStateV2) (line : String) : Except String SegStateV2 :=
  if containsSub line "Request to litellm:" then
    let ts := timestampMatch line
    let closed := st.current.map (fun cb =>
      match ts with
      | some t => { cb with end_time := some t }
      | none => cb)
    let blocks := match closed with
      | some cb => st.blocks ++ [cb]
      | none => st.blocks
    Except.ok { blocks := blocks,
                current := some { start_time := ts, litellm_request := line ++ "\n" },
                insideRequest := true, insideResponse := false }
  else if containsSub line "response_cost:" && st.current.isSome then
    match searchCostRate line.toList with
    | some num =>
      if pyFloatOk num then
        let cur2 := st.current.map (fun cb => { cb with cost_usd := some (pyFloatVal num) })
        Except.ok { st with current := cur2 }
      else Except.error "ValueError: could not convert string to float"
    | none => Except.ok st
  else if containsSub line "RAW RESPONSE:" && st.current.isSome then
    let cur2 := st.current.map (fun cb => { cb with raw_response := cb.raw_response ++ line ++ "\n" })
    Except.ok { st with insideResponse := true, insideRequest := false, current := cur2 }
  else if containsSub line "APIStatusError" && st.current.isSome then
    let cur2 := st.current.map (fun cb => { cb with api_errors := cb.api_errors ++ [String.mk (pyStrip line.toList)] })
    Except.ok { st with current := cur2 }
  else
    let st1 := if st.insideRequest && st.current.isSome then
        let cur2 := st.current.map (fun cb => { cb with litellm_request := cb.litellm_request ++ line ++ "\n" })
        { st with current := cur2 }
      else st
    let st2 := if st1.insideResponse && st1.current.isSome then
        let cur2 := st1.current.map (fun cb => { cb with raw_response := cb.raw_response ++ line ++ "\n" })
        { st1 with current := cur2 }
      else st1
    Except.ok st2

/-- Run the segmentation loop over the lines, stopping at the first
raised exception. -/
def segRunV2 : SegStateV2 → List String → Except String SegStateV2
  | st, [] => Except.ok st
  | st, line :: rest =>
    match segStepV2 st line with
    | Except.error e => Except.error e
    | Except.ok st2 => segRunV2 st2 rest

/-- The segmentation phase of `parse_log_file_v2` (lines 179-233): scan
all lines, then append the still-open block if any. -/
def segmentV2 (lines : List String) : Except String (List BlockV2) :=
  match segRunV2 ⟨[], none, false, false⟩ lines with
  | Except.error e => Except.error e
  | Except.ok st =>
    Except.ok (match st.current with
      | some cb => st.blocks ++ [cb]
      | none => st.blocks)

/-! ### Field extraction helpers of `log_parser_v2.py` -/

/-- Prefix of `s` up to and including the last occurrence of `c`
(used for greedy `.*` followed by a literal). -/
def takeThroughLast (c : Char) (s : List Char) : Option (List Char) :=
  let r := s.reverse.dropWhile (· ≠ c)
  if r.isEmpty then none else some r.reverse

/-- Strategy 1 of `extract_task_hint` (line 22):
`re.search(r"Current Task: (.*?)(?:\n|$)", ..., re.DOTALL)`, stripped. -/
def taskHintCurrent (txt : List Char) : Option (List Char) :=
  (dropAfterFirst "Current Task: ".toList txt).map
    (fun rest => pyStrip (captureUpTo ['\n'] rest))

/-- Group of `re.search(r"messages=(\[.*\])", ..., re.DOTALL)` (line 27):
the first `messages=[` through the last `]` of the text. -/
def messagesGroup : List Char → Option (List Char) :=
  searchFirst (fun suf =>
    (matchLit "messages=".toList suf).bind (fun rest =>
      match rest with
      | '[' :: body => (takeThroughLast ']' body).map (fun mid => '[' :: mid)
      | _ => none))

/-- Group of `re.search(r'"content":\s*"([^"]*)"', messages_text)`
(line 31). -/
def contentCapture : List Char → Option (List Char) :=
  searchFirst (fun suf =>
    (matchLit "\"content\":".toList suf).bind (fun rest =>
      let r2 := rest.dropWhile isPySpace
      match r2 with
      | '"' :: body =>
        let cap := body.takeWhile (· ≠ '"')
        if (body.drop cap.length).isEmpty then none else some cap
      | _ => none))

/-- Group of `re.search(r"Task:(.*?)(?:\\n|$)", content, re.DOTALL)`
(line 35); the stop marker is the two-character sequence backslash-n. -/
def taskInContent (content : List Char) : Option (List Char) :=
  (dropAfterFirst "Task:".toList content).map
    (fun rest => pyStrip (captureUpTo ['\\', 'n'] rest))

/-- Strategy 3 of `extract_task_hint` (line 40):
`re.search(r"[Tt]ask:?\s+(.*?)(?:\n|$)", ..., re.DOTALL)`, stripped. -/
def altTaskCapture : List Char → Option (List Char) :=
  searchFirst (fun suf =>
    let afterWord :=
      match matchLit "Task".toList suf with
      | some r => some r
      | none => matchLit "task".toList suf
    afterWord.bind (fun r =>
      let r2 := match r with
        | c :: rest2 => if c = ':' then rest2 else r
        | [] => r
      let ws := r2.takeWhile isPySpace
      if ws.isEmpty then none
      else some (pyStrip (captureUpTo ['\n'] (r2.drop ws.length)))))

/-- Test of strategy 4 of `extract_task_hint` (line 47): the line starts
(after whitespace) with a known action verb followed by a whitespace
character. -/
def verbLineTest (line : List Char) : Bool :=
  let r := line.dropWhile isPySpace
  ["Analyze", "Calculate", "Process", "Generate", "Create",
   "Determine", "Evaluate", "Find", "Identify", "Extract"].any (fun v =>
    match matchLit v.toList r with
    | some rest =>
      match rest with
      | c :: _ => isPySpace c
      | [] => false
    | none => false)

/-- Embedding of `extract_task_hint` (`log_parser_v2.py` lines 7-51). -/
def extract_task_hint (litellm_request : String) : String :=
  let txt := litellm_request.toList
  match taskHintCurrent txt with
  | some cap => String.mk cap
  | none =>
    let viaMessages :=
      (messagesGroup txt).bind (fun mtext =>
        (contentCapture mtext).bind (fun content => taskInContent content))
    match viaMessages with
    | some cap => String.mk cap
    | none =>
      match altTaskCapture txt with
      | some cap => String.mk cap
      | none =>
        match (splitOnChar '\n' txt).find? verbLineTest with
        | some line => String.mk (pyStrip line)
        | none => "Unknown Task"

/-- Pattern 1 of `extract_model_name`: `model="([^"]+)"`. -/
def modelPatDq : List Char → Option (List Char) :=
  searchFirst (fun suf =>
    (matchLit "model=\"".toList suf).bind (fun r =>
      let cap := r.takeWhile (· ≠ '"')
      if cap.isEmpty then none
      else if (r.drop cap.length).isEmpty then none
      else some cap))

/-- Pattern 2 of `extract_model_name`: the same with single quotes. -/
def modelPatSq : List Char → Option (List Char) :=
  searchFirst (fun suf =>
    (matchLit ("model=".toList ++ [squote]) suf).bind (fun r =>
      let cap := r.takeWhile (· ≠ squote)
      if cap.isEmpty then none
      else if (r.drop cap.length).isEmpty then none
      else some cap))

/-- Character class `[a-zA-Z0-9\-\.]` of pattern 3. -/
def isModelChar (c : Char) : Bool := c.isAlphanum || c = '-' || c = '.'

/-- Pattern 3 of `extract_model_name`: `model=([a-zA-Z0-9\-\.]+)`. -/
def modelPatBare : List Char → Option (List Char) :=
  searchFirst (fun suf =>
    (matchLit "model=".toList suf).bind (fun r =>
      let cap := r.takeWhile isModelChar
      if cap.isEmpty then none else some cap))

/-- Pattern 4 of `extract_model_name`: `"model":\s*"([^"]+)"`. -/
def modelPatJson : List Char → Option (List Char) :=
  searchFirst (fun suf =>
    (matchLit "\"model\":".toList suf).bind (fun r =>
      let r2 := r.dropWhile isPySpace
      match r2 with
      | '"' :: body =>
        let cap := body.takeWhile (· ≠ '"')
        if cap.isEmpty then none
        else if (body.drop cap.length).isEmpty then none
        else some cap
      | _ => none))

/-- Embedding of `extract_model_name` (`log_parser_v2.py` lines 122-146):
four patterns in order, first match wins, else "unknown". -/
def extract_model_name (text : String) : String :=
  let txt := text.toList
  match modelPatDq txt with
  | some cap => String.mk cap
  | none =>
    match modelPatSq txt with
    | some cap => String.mk cap
    | none =>
      match modelPatBare txt with
      | some cap => String.mk cap
      | none =>
        match modelPatJson txt with
        | some cap => String.mk cap
        | none => "unknown"

/-- In-order non-overlapping occurrence of a sequence of literals. -/
def inSeq (s : List Char) : List String → Bool
  | [] => true
  | p :: ps =>
    match dropAfterFirst p.toList s with
    | some rest => inSeq rest ps
    | none => false

/-- Group 0 of the usage-object regex of `extract_token_usage` (line 67):
`"usage":\s*({[^}]*"prompt_tokens":[^}]*"completion_tokens":[^}]*"total_tokens":[^}]*})`.
Since `[^}]*` cannot cross a closing brace, a position matches exactly
when the brace span up to the first closing brace contains the three
labels in order. -/
def usageObjectGroup : List Char → Option (List Char) :=
  searchFirst (fun suf =>
    (matchLit "\"usage\":".toList suf).bind (fun r =>
      let ws := r.takeWhile isPySpace
      match r.drop ws.length with
      | '{' :: body =>
        let inner := body.takeWhile (· ≠ '}')
        match body.drop inner.length with
        | '}' :: _ =>
          if inSeq inner ["\"prompt_tokens\":", "\"completion_tokens\":", "\"total_tokens\":"] then
            some ("\"usage\":".toList ++ ws ++ ('{' :: (inner ++ ['}'])))
          else none
        | _ => none
      | _ => none))

/-- Strategy 1 of `extract_token_usage` (lines 67-74): wrap the matched
group in braces, `json.loads` it, and return its `usage` member; a decode
failure is swallowed (the strategy yields nothing). -/
def tokenUsageS1 (raw : List Char) : Option Json :=
  match usageObjectGroup raw with
  | none => none
  | some g =>
    match jsonLoads ('{' :: (g ++ ['}'])) with
    | some (Json.obj kvs) => some ((lookupKey "usage" kvs).getD (Json.obj []))
    | _ => none

/-- Embedding of `re.search(r'"LABEL":\s*(\d+)', raw)` used by strategy 2. -/
def searchTightField (label : String) : List Char → Option Nat :=
  searchFirst (fun suf =>
    (matchLit label.toList suf).bind (fun r =>
      let r2 := r.dropWhile isPySpace
      let ds := r2.takeWhile Char.isDigit
      if ds.isEmpty then none else some (natOfDigits ds)))

/-- Strategy 2 of `extract_token_usage` (lines 77-86): the three direct
field regexes must all match. -/
def tokenUsageS2 (raw : List Char) : Option (Nat × Nat × Nat) :=
  match searchTightField "\"prompt_tokens\":" raw,
        searchTightField "\"completion_tokens\":" raw,
        searchTightField "\"total_tokens\":" raw with
  | some p, some c, some t => some (p, c, t)
  | _, _, _ => none

/-- Strategy 3 of `extract_token_usage` (lines 89-107): line-by-line scan;
a line containing a quoted label overwrites that counter with the first
digit run of the line (when one exists). -/
def lineScanCounts (raw : List Char) : Nat × Nat × Nat :=
  (splitOnChar '\n' raw).foldl (fun acc line =>
    let p := if containsSubList "\"prompt_tokens\"".toList line
      then (searchDigitRun line).getD acc.1 else acc.1
    let c := if containsSubList "\"completion_tokens\"".toList line
      then (searchDigitRun line).getD acc.2.1 else acc.2.1
    let t := if containsSubList "\"total_tokens\"".toList line
      then (searchDigitRun line).getD acc.2.2 else acc.2.2
    (p, c, t)) (0, 0, 0)

/-- Embedding of `extract_token_usage` (`log_parser_v2.py` lines 53-120).
The returned dictionary is a JSON object; the empty object stands for the
Python empty dict returned at line 120. -/
def extract_token_usage (raw_text : String) : Json :=
  let raw := raw_text.toList
  match tokenUsageS1 raw with
  | some u => u
  | none =>
    match tokenUsageS2 raw with
    | some (p, c, t) =>
      Json.obj [("prompt_tokens", Json.num p), ("completion_tokens", Json.num c),
                ("total_tokens", Json.num t)]
    | none =>
      let (p, c, t) := lineScanCounts raw
      if p ≠ 0 || c ≠ 0 || t ≠ 0 then
        let t2 := if t = 0 && (p ≠ 0 && c ≠ 0) then p + c else t
        Json.obj [("prompt_tokens", Json.num p), ("completion_tokens", Json.num c),
                  ("total_tokens", Json.num t2)]
      else Json.obj []

/-- Group of `re.search(r"Final Answer:(.*?)(?:\n\n|$)", raw, re.DOTALL)`
(line 280), stripped. -/
def faCapture (txt : List Char) : Option (List Char) :=
  (dropAfterFirst "Final Answer:".toList txt).map
    (fun r => pyStrip (captureUpTo "\n\n".toList r))

/-- Group of `re.search(r"Action:(.*?)(?:\n|$)", raw, re.DOTALL)`
(line 281), stripped. -/
def acCapture (txt : List Char) : Option (List Char) :=
  (dropAfterFirst "Action:".toList txt).map
    (fun r => pyStrip (captureUpTo ['\n'] r))

/-- Group of `re.search(r"Thought:(.*?)(?:\n|$)", raw, re.DOTALL)`
(line 282), stripped. -/
def thCapture (txt : List Char) : Option (List Char) :=
  (dropAfterFirst "Thought:".toList txt).map
    (fun r => pyStrip (captureUpTo ['\n'] r))

/-- Group of `re.search(r'(\{.*\})', raw, re.DOTALL)` (line 294):
the first opening brace through the last closing brace after it. -/
def bracesGroup : List Char → Option (List Char) :=
  searchFirst (fun suf =>
    match suf with
    | '{' :: body => (takeThroughLast '}' body).map (fun mid => '{' :: mid)
    | _ => none)

/-- JSON fallback of the thought/action/final-answer extraction
(`log_parser_v2.py` lines 292-312).  Every failure inside the inner `try`
(decode error, index/attribute errors of the access chain, a non-string
content hitting `re.search`) is swallowed by `except: pass`, leaving the
three fields unchanged. -/
def tafFallback (raw : List Char) (th ac fa : String) : String × String × String :=
  match bracesGroup raw with
  | none => (th, ac, fa)
  | some g =>
    match jsonLoads g with
    | none => (th, ac, fa)
    | some parsed =>
      let chain : Except String Json := do
        let choices ← pyGetD parsed "choices" (Json.arr [Json.obj []])
        let first ← pyIndex0 choices
        let msg ← pyGetD first "message" (Json.obj [])
        pyGetD msg "content" (Json.str "")
      match chain with
      | Except.error _ => (th, ac, fa)
      | Except.ok content =>
        if pyTruthy content then
          match content with
          | Json.str s =>
            let cs := s.toList
            let th2 := match thCapture cs with
              | some v => String.mk v
              | none => th
            let ac2 := match acCapture cs with
              | some v => String.mk v
              | none => ac
            let fa2 := match faCapture cs with
              | some v => String.mk v
              | none => fa
            (th2, ac2, fa2)
          | _ => (th, ac, fa)
        else (th, ac, fa)

/-- Python numeric operand for multiplication by a float rate: numbers and
booleans work, anything else raises `TypeError`. -/
def asNumOperand : Json → Except String ℚ
  | Json.num q => Except.ok q
  | Json.bool b => Except.ok (if b then 1 else 0)
  | _ => Except.error "TypeError"

/-- Default prompt-token rate `1.5e-07` of the source. -/
def promptTokenRateDefault : ℚ := 15 / 100000000

/-- Default completion-token rate `6e-07` of the source. -/
def completionTokenRateDefault : ℚ := 6 / 10000000

/-- Embedding of the cost expression of `parse_log_file_v2` line 257:
`(usage.get('prompt_tokens', 0) * 1.5e-07) + (usage.get('completion_tokens', 0) * 6e-07)`. -/
def usageCost (kvs : List (String × Json)) : Except String ℚ :=
  match asNumOperand ((lookupKey "prompt_tokens" kvs).getD (Json.num 0)) with
  | Except.error e => Except.error e
  | Except.ok p =>
    match asNumOperand ((lookupKey "completion_tokens" kvs).getD (Json.num 0)) with
    | Except.error e => Except.error e
    | Except.ok c => Except.ok (p * promptTokenRateDefault + c * completionTokenRateDefault)

/-- Python dictionary assignment `d[k] = v`: replace an existing binding,
or append a new one. -/
def setKey (kvs : List (String × Json)) (k : String) (v : Json) : List (String × Json) :=
  if (lookupKey k kvs).isSome then
    kvs.map (fun p => if p.1 = k then (p.1, v) else p)
  else kvs ++ [(k, v)]

/-- The per-block enrichment loop body of `parse_log_file_v2`
(lines 236-316).  The thought/action/final-answer block is wrapped in
`try/except Exception` in the source, but nothing inside it can escape the
inner handler, so it is total here; the cost computation at line 257 is
outside any handler and raises `TypeError` for non-numeric usage values. -/
def extract_block_v2 (b : BlockV2) : Except String BlockV2 :=
  let hint := extract_task_hint b.litellm_request
  let m1 := extract_model_name b.litellm_request
  let m := if m1 = "unknown" then
      let m2 := extract_model_name b.raw_response
      if m2 ≠ "unknown" then m2 else m1
    else m1
  let raw := b.raw_response
  let usage := extract_token_usage raw
  let parsedUsageE : Except String Json :=
    if pyTruthy usage then
      match usage with
      | Json.obj kvs =>
        match usageCost kvs with
        | Except.error e => Except.error e
        | Except.ok cost => Except.ok (Json.obj (setKey kvs "cost_usd" (Json.num cost)))
      | other => Except.ok other
    else Except.ok b.parsed_usage
  match parsedUsageE with
  | Except.error e => Except.error e
  | Except.ok parsedUsage =>
  let rawl := raw.toList
  let fa := match faCapture rawl with
    | some v => String.mk v
    | none => b.final_answer
  let ac := match acCapture rawl with
    | some v => String.mk v
    | none => b.action
  let th := match thCapture rawl with
    | some v => String.mk v
    | none => b.thought
  let tafs := if fa = "" && ac = "" && th = "" then tafFallback rawl th ac fa else (th, ac, fa)
  Except.ok { b with
    task_hint := hint, model := some m, parsed_usage := parsedUsage,
    thought := tafs.1, action := tafs.2.1, final_answer := tafs.2.2 }

/-- Embedding of `parse_log_file_v2` (`log_parser_v2.py` lines 164-318):
segmentation followed by per-block field extraction.  The input is the
line list produced by `read_text().splitlines()`. -/
def parse_log_file_v2 (lines : List String) : Except String (List BlockV2) :=
  match segmentV2 lines with
  | Except.error e => Except.error e
  | Except.ok blocks => blocks.mapM extract_block_v2

/-! ## Embedding of `parsers/log_parser.py` and `utils/parsing_utils.py` -/

/-- The `ParsedBlock` class of `models/parsed_block.py`.  The class
constructor coerces a falsy `parsed_usage` to the empty dict, so the field
is always a dictionary; its entries are numeric in every run of the
pipeline and are modelled as rationals. -/
structure ParsedBlock where
  task_hint : String := "Unknown Task"
  litellm_request : String := ""
  raw_response : String := ""
  thought : Option String := none
  action : Option String := none
  final_answer : Option String := none
  parsed_usage : List (String × ℚ) := []
  parsing_error : Bool := false
  start_time : Option String := none
  end_time : Option String := none
  model : Option String := none
  api_errors : List String := []
deriving DecidableEq, Repr

/-- Embedding of `extract_datetime` (`utils/parsing_utils.py` lines 20-24). -/
def extract_datetime (line : String) : Option String := timestampMatch line

/-- Embedding of `safe_json_loads` composed into `extract_json_from_response`
(`utils/parsing_utils.py` lines 5-18): take the text after the first
`RAW RESPONSE:` marker, find the first opening brace, strip, and decode;
any decode failure yields `none`. -/
def extract_json_from_response (response : String) : Option Json :=
  match dropAfterFirst "RAW RESPONSE:".toList response.toList with
  | none => none
  | some split =>
    let fromBrace := split.dropWhile (· ≠ '{')
    if fromBrace.isEmpty then none
    else jsonLoads (pyStrip fromBrace)

/-- State of the segmentation loop of `parse_log_file`
(`parsers/log_parser.py` lines 8-10). -/
structure SegStateV1 where
  blocks : List ParsedBlock
  current : Option ParsedBlock
  insideRequest : Bool
  insideResponse : Bool

/-- One iteration of the segmentation loop of `parse_log_file`
(`parsers/log_parser.py` lines 12-41). -/
def segStepV1 (st : SegStateV1) (line : String) : SegStateV1 :=
  if containsSub line "Request to litellm:" then
    let blocks := match st.current with
      | some cb => st.blocks ++ [cb]
      | none => st.blocks
    { blocks := blocks,
      current := some { task_hint := "Unknown Task", litellm_request := line ++ "\n",
                        raw_response := "", start_time := extract_datetime line,
                        end_time := none, parsed_usage := [], model := some "unknown",
                        thought := some "", action := some "", final_answer := some "",
                        parsing_error := false },
      insideRequest := true, insideResponse := false }
  else if containsSub line "RAW RESPONSE:" && st.current.isSome then
    let cur2 := st.current.map (fun cb => { cb with raw_response := cb.raw_response ++ line ++ "\n" })
    { st with insideRequest := false, insideResponse := true, current := cur2 }
  else if st.insideRequest && st.current.isSome then
    let cur2 := st.current.map (fun cb => { cb with litellm_request := cb.litellm_request ++ line ++ "\n" })
    { st with current := cur2 }
  else if st.insideResponse && st.current.isSome then
    let cur2 := st.current.map (fun cb => { cb with raw_response := cb.raw_response ++ line ++ "\n" })
    { st with current := cur2 }
  else st

/-- The segmentation phase of `parse_log_file` (lines 7-44). -/
def segmentV1 (lines : List String) : List ParsedBlock :=
  let st := lines.foldl segStepV1 ⟨[], none, false, false⟩
  match st.current with
  | some cb => st.blocks ++ [cb]
  | none => st.blocks

/-- Numeric entries of a decoded JSON object, used to store a decoded
usage payload into the rational-valued `parsed_usage` field of the model;
non-numeric members (which no claim examines) are not representable and
are dropped. -/
def jsonNumericFields : Json → List (String × ℚ)
  | Json.obj kvs =>
    kvs.filterMap (fun p =>
      match p.2 with
      | Json.num q => some (p.1, q)
      | _ => none)
  | _ => []

/-- Whether the `parsing_error` branch condition of `parse_log_file`
holds: the decoded response is absent or falsy (line 47 `if parsed:`). -/
def v1NoStructure (resp : String) : Bool :=
  match extract_json_from_response resp with
  | none => true
  | some j => !(pyTruthy j)

/-- Whether `extract_json_from_response` actually attempts a JSON decode
on the response text (marker present and an opening brace found). -/
def v1DecodeAttempted (resp : String) : Bool :=
  match dropAfterFirst "RAW RESPONSE:".toList resp.toList with
  | none => false
  | some split => !(split.dropWhile (· ≠ '{')).isEmpty

/-- Whether the JSON decode performed by `extract_json_from_response`
was attempted and itself failed (the only decode-failure event of the
v1 extraction path). -/
def v1DecodeFailed (resp : String) : Bool :=
  v1DecodeAttempted resp && (extract_json_from_response resp).isNone

/-- The truthy branch of the per-block enrichment loop body of
`parse_log_file` (`parsers/log_parser.py` lines 48-56).  The module never
imports `re`, so reaching any of the `re.search` calls at lines 54-56
raises `NameError`; the subscript `parsed.get('choices', [{}])[0]` can
raise `IndexError`; none of these are caught.  They surface as
`Except.error`.  (A non-string `model` member of the decoded JSON would be
stored as-is by the source; the model's `Option String` typed field keeps
its prior value in that case, which no claim observes.) -/
def v1EnrichTruthy (parsed : Json) (b : ParsedBlock) : Except String ParsedBlock :=
  match pyGetD parsed "usage" (Json.obj []) with
      | Except.error e => Except.error e
      | Except.ok usage =>
      match pyGetD parsed "model" (Json.str "unknown") with
      | Except.error e => Except.error e
      | Except.ok modelJ =>
      match pyGetD parsed "choices" (Json.arr [Json.obj []]) with
      | Except.error e => Except.error e
      | Except.ok choices =>
      match pyIndex0 choices with
      | Except.error e => Except.error e
      | Except.ok first =>
      match pyGetD first "message" (Json.obj []) with
      | Except.error e => Except.error e
      | Except.ok msg =>
      match pyGetD msg "content" (Json.str "") with
      | Except.error e => Except.error e
      | Except.ok content =>
      let modelS := match modelJ with
        | Json.str s => some s
        | _ => b.model
      let b2 := { b with parsed_usage := jsonNumericFields usage, model := modelS }
      if pyTruthy content then
        match pyInStr "Thought:" content with
        | Except.error e => Except.error e
        | Except.ok hasThought =>
        if hasThought then Except.error "NameError: name re is not defined"
        else
          match pyInStr "Action:" content with
          | Except.error e => Except.error e
          | Except.ok hasAction =>
          if hasAction then Except.error "NameError: name re is not defined"
          else
            match pyInStr "Final Answer:" content with
            | Except.error e => Except.error e
            | Except.ok hasFinal =>
            if hasFinal then Except.error "NameError: name re is not defined"
            else Except.ok { b2 with thought := some "", action := some "", final_answer := some "" }
      else Except.ok b2

/-- The per-block enrichment loop body of `parse_log_file`
(`parsers/log_parser.py` lines 46-58): decode the response, then, when
the decoded value is truthy, run the field extraction; otherwise set
`parsing_error`. -/
def extract_fields_v1 (b : ParsedBlock) : Except String ParsedBlock :=
  match extract_json_from_response b.raw_response with
  | some parsed =>
    if pyTruthy parsed then v1EnrichTruthy parsed b
    else Except.ok { b with parsing_error := true }
  | none => Except.ok { b with parsing_error := true }

/-- Embedding of `parse_log_file` (`parsers/log_parser.py` lines 6-60):
segmentation then the enrichment loop over all blocks; an exception in the
loop aborts the whole call. -/
def parse_log_file (lines : List String) : Except String (List ParsedBlock) :=
  (segmentV1 lines).mapM extract_fields_v1

/-! ## Embedding of the analyzers (`analyzers/unified_analyzer.py`) -/

/-- The cost-rate override scan of `unified_analysis`
(`analyzers/unified_analyzer.py` lines 53-61): each block with an override
key replaces the corresponding rate; the loop breaks as soon as both
rates differ from their defaults.  (`block.parsed_usage or {}` is the
identity here because the `ParsedBlock` constructor already coerces falsy
payloads to the empty dict.) -/
def unified_rate_scan_go : List ParsedBlock → ℚ → ℚ → ℚ × ℚ
  | [], p, c => (p, c)
  | b :: rest, p, c =>
    let usage := b.parsed_usage
    let p2 := match lookupKey "prompt_token_cost" usage with
      | some v => v
      | none => p
    let c2 := match lookupKey "completion_token_cost" usage with
      | some v => v
      | none => c
    if p2 ≠ promptTokenRateDefault && c2 ≠ completionTokenRateDefault then (p2, c2)
    else unified_rate_scan_go rest p2 c2

/-- The scan started from the default rates `1.5e-07` and `6e-07`
(lines 49-50). -/
def unified_rate_scan (blocks : List ParsedBlock) : ℚ × ℚ :=
  unified_rate_scan_go blocks promptTokenRateDefault completionTokenRateDefault

/-! ### Timestamp parsing, `datetime.strptime(ts, "%Y-%m-%d %H:%M:%S")`

CPython compiles the format to a regex: `%Y` is exactly four digits; the
other fields accept one or two digits with the alternation orders of
`_strptime.TimeRE` (two-digit alternatives first); trailing unconverted
text is an error; the resulting `datetime(...)` constructor validates the
day against the month length.  Since every literal separator of the
format is a non-digit, the greedy two-digit-then-one-digit strategy below
agrees with regex backtracking. -/

/-- Parse a one-or-two digit field with the given validity predicates. -/
def parse2or1 (v2ok v1ok : Nat → Bool) : List Char → Option (Nat × List Char)
  | a :: b :: rest =>
    if a.isDigit && b.isDigit then
      let n := digitVal a * 10 + digitVal b
      if v2ok n then some (n, rest)
      else if v1ok (digitVal a) then some (digitVal a, b :: rest)
      else none
    else if a.isDigit && v1ok (digitVal a) then some (digitVal a, b :: rest)
    else none
  | [a] => if a.isDigit && v1ok (digitVal a) then some (digitVal a, []) else none
  | [] => none

def expectChar (c : Char) : List Char → Option (List Char)
  | d :: rest => if d = c then some rest else none
  | [] => none

/-- Parse the six fields of `"%Y-%m-%d %H:%M:%S"`, requiring the whole
string to be consumed. -/
def strptimeYmdHms (s : String) : Option (Nat × Nat × Nat × Nat × Nat × Nat) :=
  match s.toList with
  | a :: b :: c :: d :: rest =>
    if a.isDigit && b.isDigit && c.isDigit && d.isDigit then
      let y := digitVal a * 1000 + digitVal b * 100 + digitVal c * 10 + digitVal d
      (expectChar '-' rest).bind (fun r1 =>
      (parse2or1 (fun n => decide (1 ≤ n) && decide (n ≤ 12)) (fun n => decide (1 ≤ n) && decide (n ≤ 9)) r1).bind (fun (mo, r2) =>
      (expectChar '-' r2).bind (fun r3 =>
      (parse2or1 (fun n => decide (1 ≤ n) && decide (n ≤ 31)) (fun n => decide (1 ≤ n) && decide (n ≤ 9)) r3).bind (fun (dy, r4) =>
      (expectChar ' ' r4).bind (fun r5 =>
      (parse2or1 (fun n => decide (n ≤ 23)) (fun _ => true) r5).bind (fun (h, r6) =>
      (expectChar ':' r6).bind (fun r7 =>
      (parse2or1 (fun n => decide (n ≤ 59)) (fun _ => true) r7).bind (fun (mi, r8) =>
      (expectChar ':' r8).bind (fun r9 =>
      (parse2or1 (fun n => decide (n ≤ 59)) (fun _ => true) r9).bind (fun (sec, r10) =>
      if r10.isEmpty then some (y, mo, dy, h, mi, sec) else none))))))))))
    else none
  | _ => none

def isLeapYear (y : Nat) : Bool :=
  (y % 4 = 0 && y % 100 ≠ 0) || y % 400 = 0

def daysInMonth (y m : Nat) : Nat :=
  if m = 2 then (if isLeapYear y then 29 else 28)
  else if m = 4 || m = 6 || m = 9 || m = 11 then 30
  else 31

/-- Days since the proleptic-Gregorian epoch (standard civil-date
formula), used to give each timestamp an absolute second count. -/
def daysFromCivil (y m d : Nat) : Nat :=
  let y2 := if m ≤ 2 then y - 1 else y
  let era := y2 / 400
  let yoe := y2 % 400
  let mp := (m + 9) % 12
  let doy := (153 * mp + 2) / 5 + d - 1
  let doe := yoe * 365 + yoe / 4 - yoe / 100 + doy
  era * 146097 + doe

/-- Embedding of `datetime.strptime(s, "%Y-%m-%d %H:%M:%S")` as an
absolute second count; `none` models the `ValueError` path (caught by the
source, which then skips the block). -/
def strptimeSeconds (s : String) : Option Nat :=
  (strptimeYmdHms s).bind (fun t =>
    match t with
    | (y, mo, dy, h, mi, sec) =>
      if 1 ≤ y && 1 ≤ dy && dy ≤ daysInMonth y mo then
        some (daysFromCivil y mo dy * 86400 + h * 3600 + mi * 60 + sec)
      else none)

/-- The `times` list of `unified_analysis` (lines 63-71) and of
`analyze_response_times` (`analyzers/response_time_analyzer.py`
lines 7-16): blocks with a truthy start time that parses. -/
def unified_times (blocks : List ParsedBlock) : List (ParsedBlock × Nat) :=
  blocks.filterMap (fun b =>
    match b.start_time with
    | some s => if s ≠ "" then (strptimeSeconds s).map (fun t => (b, t)) else none
    | none => none)

/-- Sort order of `times.sort(key=lambda x: x[1])`. -/
def sndLe (p q : ParsedBlock × Nat) : Prop := p.2 ≤ q.2

instance : DecidableRel sndLe := fun p q => Nat.decLe p.2 q.2

instance : IsTotal (ParsedBlock × Nat) sndLe := ⟨fun a b => Nat.le_total a.2 b.2⟩

instance : IsTrans (ParsedBlock × Nat) sndLe := ⟨fun _ _ _ => Nat.le_trans⟩

/-- Consecutive time differences of the sorted list, in seconds
(lines 76-80): entry `i` (for `i ≥ 1`) maps block `i` to
`timestamp(i) - timestamp(i-1)`. -/
def consecutiveLatencies : List (ParsedBlock × Nat) → List (ParsedBlock × Int)
  | p :: q :: rest => (q.1, (q.2 : Int) - (p.2 : Int)) :: consecutiveLatencies (q :: rest)
  | _ => []

/-- The `response_times_map` of `unified_analysis` (lines 72-80), as the
association list of (block, latency seconds) pairs; Python sorts stably,
which `List.insertionSort` with a `≤` relation reproduces. -/
def unified_response_times (blocks : List ParsedBlock) : List (ParsedBlock × Int) :=
  let sorted := List.insertionSort sndLe (unified_times blocks)
  if 2 ≤ sorted.length then consecutiveLatencies sorted else []

/-! ## Embedding of `analyzers/workflow_reconstructor.py` -/

/-- The `CrewAITask` model of `models/config_models.py`. -/
structure CrewAITask where
  task_id : String := ""
  description : String := ""
  expected_output : String := ""
  agent : String := ""
  dependencies : List String := []
deriving DecidableEq, Repr

/-- The fields of `models/enhanced_parsed_block.py` consulted by the
workflow reconstructor and the task matcher; the remaining fields of the
pydantic model carry payloads that none of the modelled functions read. -/
structure EnhancedParsedBlock where
  task_hint : String := ""
  litellm_request : String := ""
  raw_response : String := ""
  final_answer : Option String := none
  task_id : Option String := none
  agent_id : Option String := none
deriving DecidableEq, Repr

/-- The `WorkflowNode` class (`workflow_reconstructor.py` lines 5-17);
the dependency and dependent sets are modelled as duplicate-free lists. -/
structure WorkflowNode where
  task_id : String
  blocks : List EnhancedParsedBlock
  dependencies : List String
  dependents : List String
deriving DecidableEq, Repr

/-- Python `set.add`: insert when absent. -/
def pySetAdd (x : String) (l : List String) : List String :=
  if x ∈ l then l else l ++ [x]

/-- `WorkflowNode.add_dependency` (line 13). -/
def add_dependency (d : String) (n : WorkflowNode) : WorkflowNode :=
  { n with dependencies := pySetAdd d n.dependencies }

/-- `WorkflowNode.add_dependent` (line 16). -/
def add_dependent (t : String) (n : WorkflowNode) : WorkflowNode :=
  { n with dependents := pySetAdd t n.dependents }

/-- Update the first binding of a key in an association list (Python dict
item mutation). -/
def updateFirst {β : Type} (k : String) (f : β → β) : List (String × β) → List (String × β)
  | [] => []
  | (k2, v) :: rest =>
    if k2 = k then (k2, f v) :: rest else (k2, v) :: updateFirst k f rest

/-- One step of the grouping loop of `reconstruct` (lines 51-55): append
the block to its task bucket, creating the bucket on first sight (Python
dict insertion order). -/
def groupInsert (m : List (String × List EnhancedParsedBlock)) (tid : String)
    (b : EnhancedParsedBlock) : List (String × List EnhancedParsedBlock) :=
  if (lookupKey tid m).isSome then updateFirst tid (fun bs => bs ++ [b]) m
  else m ++ [(tid, [b])]

/-- The `task_blocks` grouping of `reconstruct` (lines 50-55). -/
def task_blocks (blocks : List EnhancedParsedBlock) : List (String × List EnhancedParsedBlock) :=
  blocks.foldl (fun m b =>
    match b.task_id with
    | some tid => groupInsert m tid b
    | none => m) []

/-- Node creation of `reconstruct` (lines 57-58). -/
def initNodes (blocks : List EnhancedParsedBlock) : List (String × WorkflowNode) :=
  (task_blocks blocks).map (fun p => (p.1, ⟨p.1, p.2, [], []⟩))

/-- The twin edge insertion of `reconstruct` (lines 64-65):
`nodes[task_id].add_dependency(dep)` then `nodes[dep].add_dependent(task_id)`. -/
def addEdge (tid dep : String) (m : List (String × WorkflowNode)) : List (String × WorkflowNode) :=
  updateFirst dep (add_dependent tid) (updateFirst tid (add_dependency dep) m)

/-- The inner dependency loop of `reconstruct` (lines 62-65): an edge is
added only when the dependency names an existing node. -/
def addDeps (tid : String) (deps : List String) (m : List (String × WorkflowNode)) :
    List (String × WorkflowNode) :=
  deps.foldl (fun m2 dep => if (lookupKey dep m2).isSome then addEdge tid dep m2 else m2) m

/-- Embedding of `WorkflowReconstructor.reconstruct`
(`workflow_reconstructor.py` lines 48-66). -/
def reconstruct (blocks : List EnhancedParsedBlock) (tasks : List (String × CrewAITask)) :
    List (String × WorkflowNode) :=
  tasks.foldl (fun m p => if (lookupKey p.1 m).isSome then addDeps p.1 p.2.dependencies m else m)
    (initNodes blocks)

/-! ## Embedding of `parsers/config_aware_parser.py` task matching -/

/-- The first-loop condition of `_match_task_to_block`
(`config_aware_parser.py` line 17): the lowered task id occurs in the
lowered hint, or one of the first two dot-fragments of the lowered
description occurs in the hint. -/
def first_loop_test (hint : List Char) (p : String × CrewAITask) : Bool :=
  containsSubList (pyLower p.1.toList) hint ||
    (((splitOnChar '.' (pyLower p.2.description.toList)).take 2).any
      (fun phrase => containsSubList phrase hint))

/-- Embedding of `ConfigAwareLogParser._match_task_to_block`
(`config_aware_parser.py` lines 13-22): first loop over the declared
tasks with `first_loop_test`, then a second loop matching the expected
output inside the response text; first hit wins, else `none`. -/
def match_task_to_block (tasks : List (String × CrewAITask)) (block : BlockV2) : Option String :=
  let hint := pyLower block.task_hint.toList
  match (tasks.find? (first_loop_test hint)).map Prod.fst with
  | some tid => some tid
  | none =>
    (tasks.find? (fun p =>
      containsSubList (pyLower p.2.expected_output.toList) (pyLower block.raw_response.toList))).map
      Prod.fst

/-! ## Embedding of `analyzers/token_usage_analyzer.py` -/

/-- Embedding of `extract_token_usage_from_raw_response`
(`token_usage_analyzer.py` lines 7-73): direct three-field regexes, then
the same line-by-line scan as `extract_token_usage` (the loop bodies are
textually identical), then a last-resort `findall` per field; `none`
models the final `return None`. -/
def extract_token_usage_from_raw_response (raw_text : String) : Option Json :=
  let raw := raw_text.toList
  match tokenUsageS2 raw with
  | some (p, c, t) =>
    some (Json.obj [("prompt_tokens", Json.num p), ("completion_tokens", Json.num c),
                    ("total_tokens", Json.num t)])
  | none =>
    let (p, c, t) := lineScanCounts raw
    if p ≠ 0 || c ≠ 0 || t ≠ 0 then
      let t2 := if t = 0 && (p ≠ 0 && c ≠ 0) then p + c else t
      some (Json.obj [("prompt_tokens", Json.num p), ("completion_tokens", Json.num c),
                      ("total_tokens", Json.num t2)])
    else
      let fp := searchTightField "\"prompt_tokens\":" raw
      let fc := searchTightField "\"completion_tokens\":" raw
      let ft := searchTightField "\"total_tokens\":" raw
      if fp.isSome || fc.isSome || ft.isSome then
        some (Json.obj [("prompt_tokens", Json.num (fp.getD 0)),
                        ("completion_tokens", Json.num (fc.getD 0)),
                        ("total_tokens", Json.num (ft.getD 0))])
      else none

/-! ## Predicates and concrete inputs used to state the claims -/

/-- The line-by-line scan finds all three token labels (each label is
contained in some line of the text). -/
def lineScanFindsLabels (raw : List Char) : Bool :=
  (splitOnChar '\n' raw).any (containsSubList "\"prompt_tokens\"".toList) &&
  (splitOnChar '\n' raw).any (containsSubList "\"completion_tokens\"".toList) &&
  (splitOnChar '\n' raw).any (containsSubList "\"total_tokens\"".toList)

/-- A log whose single request block is followed by a `response_cost:`
line carrying the token `1.2.3`, which `float()` rejects. -/
def costCrashLog : List String :=
  ["2024-01-01 00:00:00 Request to litellm: x", "response_cost: 1.2.3"]

/-- A log whose single block has a well-formed JSON response whose message
content contains a `Thought:` label. -/
def thoughtCrashLog : List String :=
  ["2024-01-01 00:00:00 Request to litellm: hi",
   "RAW RESPONSE: \x7b\"choices\": [\x7b\"message\": \x7b\"content\": \"Thought: hi\"\x7d\x7d]\x7d"]

/-- A block whose response text holds no JSON at all (no decode is even
attempted on it). -/
def noJsonBlock : ParsedBlock := { raw_response := "no structure here" }

/-- An explicit all-zero usage report in the colon-tight format matched by
the direct-regex strategy. -/
def zeroTightUsageText : String :=
  "\"prompt_tokens\": 0\n\"completion_tokens\": 0\n\"total_tokens\": 0"

/-- An explicit all-zero usage report with a space before each colon, so
that only the line-by-line scan can read it. -/
def zeroSpacedUsageText : String :=
  "\"prompt_tokens\" : 0\n\"completion_tokens\" : 0\n\"total_tokens\" : 0"

/-- A block overriding only the prompt rate (to `2`). -/
def promptOverrideBlock1 : ParsedBlock := { parsed_usage := [("prompt_token_cost", (2 : ℚ))] }

/-- A later block overriding only the prompt rate (to `3`). -/
def promptOverrideBlock2 : ParsedBlock := { parsed_usage := [("prompt_token_cost", (3 : ℚ))] }

/-- A block overriding both rates (`2` and `3`). -/
def bothOverrideBlock : ParsedBlock :=
  { parsed_usage := [("prompt_token_cost", (2 : ℚ)), ("completion_token_cost", (3 : ℚ))] }

/-- Three blocks for the latency counterexample: two share a start
timestamp. -/
def lateBlockA : ParsedBlock := { task_hint := "A", start_time := some "2024-01-01 00:00:00" }

def lateBlockB : ParsedBlock := { task_hint := "B", start_time := some "2024-01-01 00:00:00" }

def lateBlockC : ParsedBlock := { task_hint := "C", start_time := some "2024-01-01 00:00:05" }

/-- Two matched blocks and two task declarations (one dependency naming a
ghost task) for the workflow-graph witnesses. -/
def wfBlockA : EnhancedParsedBlock := { task_id := some "a" }

def wfBlockB : EnhancedParsedBlock := { task_id := some "b" }

def wfTaskA : CrewAITask := { task_id := "a", dependencies := ["b", "ghost"] }

def wfTaskB : CrewAITask := { task_id := "b" }

def wfTasks : List (String × CrewAITask) := [("a", wfTaskA), ("b", wfTaskB)]

def wfBlocks : List EnhancedParsedBlock := [wfBlockA, wfBlockB]

/-- The nodes the reconstruction is expected to build from `wfBlocks` and
`wfTasks`. -/
def wfNodeA : WorkflowNode := ⟨"a", [wfBlockA], ["b"], []⟩

def wfNodeB : WorkflowNode := ⟨"b", [wfBlockB], [], ["a"]⟩

/-- A task map whose second entry has an empty description, plus an
arbitrary block, for the matcher witness. -/
def mtTasks : List (String × CrewAITask) :=
  [("t1", { task_id := "t1", description := "Specific things" }),
   ("t2", { task_id := "t2", description := "" })]

def mtBlock : BlockV2 := { task_hint := "whatever" }

/-- No dangling edges: every name in a dependency or dependent set of a
node of the mapping is itself a key of the mapping. -/
def NoDangling (m : List (String × WorkflowNode)) : Prop :=
  ∀ x nx, lookupKey x m = some nx →
    (∀ d ∈ nx.dependencies, (lookupKey d m).isSome = true) ∧
    (∀ d ∈ nx.dependents, (lookupKey d m).isSome = true)

/-- Edge symmetry: `y ∈ x.dependents` exactly when `x ∈ y.dependencies`,
for all nodes of the mapping. -/
def SymEdges (m : List (String × WorkflowNode)) : Prop :=
  ∀ x y nx ny, lookupKey x m = some nx → lookupKey y m = some ny →
    (y ∈ nx.dependents ↔ x ∈ ny.dependencies)

/-- The relation between a produced block and the marker line that opened
it: the block's request text begins with the full marker line text. -/
def beginsWithMarkerLine (b : BlockV2) (m : String) : Prop :=
  ∃ t, b.litellm_request = m ++ "\n" ++ t

/-! ## Theorems -/

theorem containsSubList_nil (s : List Char) : containsSubList [] s = true := by
  induction s with
  | nil => rfl
  | cons c rest ih => simp [containsSubList, List.isPrefixOf]

/-- C4: under the default rates, for all nonnegative integer token counts
`p` and `c` the cost expression of `parse_log_file_v2` line 257 yields
exactly `p * 1.5e-07 + c * 6e-07` and never errors; in particular the
cost of zero usage (and of a usage dict with both count keys absent) is
`0.0`. -/
theorem cost_linear_default_rates :
    (∀ p c : ℕ, usageCost [("prompt_tokens", Json.num p), ("completion_tokens", Json.num c)] =
        Except.ok ((p : ℚ) * (15 / 100000000) + (c : ℚ) * (6 / 10000000)))
    ∧ usageCost [("prompt_tokens", Json.num 0), ("completion_tokens", Json.num 0)] = Except.ok 0
    ∧ usageCost [] = Except.ok 0 := by
  refine ⟨fun p c => ?_, ?_, ?_⟩
  · simp [usageCost, lookupKey, asNumOperand, promptTokenRateDefault, completionTokenRateDefault]
  · simp [usageCost, lookupKey, asNumOperand, promptTokenRateDefault, completionTokenRateDefault]
  · simp [usageCost, lookupKey, asNumOperand, promptTokenRateDefault, completionTokenRateDefault]

/-- C1: the segmenter `parse_log_file_v2` does not always return one block
per request marker: on a log with exactly one marker line followed by a
`response_cost:` line whose `[0-9.]+` match is `1.2.3`, the call raises
`ValueError` from `float("1.2.3")` instead of returning one block.  This
contradicts the spec sentence that no line ever throws, so the code, not
the claim, is at fault. -/
theorem segmenter_crash_on_unparseable_cost :
    costCrashLog.countP (fun l => containsSub l "Request to litellm:") = 1
    ∧ parse_log_file_v2 costCrashLog =
        Except.error "ValueError: could not convert string to float" :=
  ⟨rfl, rfl⟩

/-- C3: the field-extraction phase of `parse_log_file` raises to its
caller: on a block whose decoded response content contains `Thought:`,
line 54 evaluates `re.search` although the module never imports `re`, so
`NameError` propagates.  The v2 extractor handles the same log without
raising. -/
theorem extractor_raises_on_thought_content :
    parse_log_file thoughtCrashLog = Except.error "NameError: name re is not defined"
    ∧ (parse_log_file_v2 thoughtCrashLog).isOk = true :=
  ⟨rfl, rfl⟩

/-- C2 counterexample: a block whose response holds no JSON at all (so no
decode is attempted, hence no decode failure) still comes out of the v1
extraction with `parsing_error = true`, contradicting the claim that the
flag is set only after a fallback decode failure. -/
theorem parsing_error_set_without_decode_failure :
    extract_fields_v1 noJsonBlock = Except.ok { noJsonBlock with parsing_error := true }
    ∧ v1DecodeAttempted noJsonBlock.raw_response = false
    ∧ v1DecodeFailed noJsonBlock.raw_response = false :=
  ⟨rfl, rfl, rfl⟩

/-- C2 amended: in `parse_log_file` the flag is set exactly when the
response yields no truthy JSON (marker missing, no brace, decode failure,
or an empty decoded value) - decode failure is not required; in
`parse_log_file_v2` the extraction phase never alters the flag at all
(its fallback decode failures are swallowed without flagging). -/
theorem v1EnrichTruthy_ok_flag (parsed : Json) (b b2 : ParsedBlock)
    (h : v1EnrichTruthy parsed b = Except.ok b2) : b2.parsing_error = b.parsing_error := by
  unfold v1EnrichTruthy at h
  repeat' split at h
  all_goals try cases h
  all_goals rfl

theorem parsing_error_flag_characterization :
    (∀ b b2 : ParsedBlock, extract_fields_v1 b = Except.ok b2 →
        b2.parsing_error = (b.parsing_error || v1NoStructure b.raw_response))
    ∧ (∀ b b2 : BlockV2, extract_block_v2 b = Except.ok b2 →
        b2.parsing_error = b.parsing_error) := by
  constructor
  · intro b b2 h
    cases hj : extract_json_from_response b.raw_response with
    | none =>
      simp only [extract_fields_v1, hj] at h
      injection h with h2
      subst h2
      simp [v1NoStructure, hj]
    | some j =>
      by_cases ht : pyTruthy j
      · simp only [extract_fields_v1, hj, ht, if_true] at h
        rw [v1EnrichTruthy_ok_flag j b b2 h]
        simp [v1NoStructure, hj, ht]
      · simp only [extract_fields_v1, hj, ht, if_false, Bool.false_eq_true] at h
        injection h with h2
        subst h2
        simp [v1NoStructure, hj, ht]
  · intro b b2 h
    unfold extract_block_v2 at h
    simp only [] at h
    split at h
    · cases h
    · injection h with h2
      subst h2
      simp

/-- Witness for the amended C2 characterization, at a block with an empty
response (v1 conjunct) and at a default block (v2 conjunct). -/
theorem parsing_error_flag_characterization_witness :
    (({ ({} : ParsedBlock) with parsing_error := true } : ParsedBlock).parsing_error
      = (({} : ParsedBlock).parsing_error || v1NoStructure ({} : ParsedBlock).raw_response))
    ∧ (∀ b2 : BlockV2, extract_block_v2 {} = Except.ok b2 →
        b2.parsing_error = ({} : BlockV2).parsing_error) :=
  ⟨parsing_error_flag_characterization.1 {} { ({} : ParsedBlock) with parsing_error := true } rfl,
   fun b2 h => parsing_error_flag_characterization.2 {} b2 h⟩

/-- C9 counterexample: on a colon-tight explicit all-zero usage report the
line-by-line scan would find all labels with all counts zero, yet both
extraction functions return a truthy zero-valued usage dictionary (the
direct-regex strategy fires first), which is distinguishable from the
absent/empty value at the public interface. -/
theorem all_zero_usage_not_empty_via_direct_regex :
    lineScanFindsLabels zeroTightUsageText.toList = true
    ∧ lineScanCounts zeroTightUsageText.toList = (0, 0, 0)
    ∧ pyTruthy (extract_token_usage zeroTightUsageText) = true
    ∧ (extract_token_usage_from_raw_response zeroTightUsageText).isSome = true :=
  ⟨rfl, rfl, rfl, rfl⟩

/-- C9 amended: when the earlier whole-text strategies all fail (the
usage-object regex for `extract_token_usage`, and every colon-tight
per-field regex for both functions) and the line-by-line scan extracts
only zero counts, `extract_token_usage` returns the empty dict and
`extract_token_usage_from_raw_response` returns `None`: an all-zero
report readable only line-by-line is indistinguishable from no usage
information. -/
theorem all_zero_line_scan_yields_empty_usage (raw : String)
    (h1 : tokenUsageS1 raw.toList = none)
    (hp : searchTightField "\"prompt_tokens\":" raw.toList = none)
    (hc : searchTightField "\"completion_tokens\":" raw.toList = none)
    (ht : searchTightField "\"total_tokens\":" raw.toList = none)
    (_hlab : lineScanFindsLabels raw.toList = true)
    (hz : lineScanCounts raw.toList = (0, 0, 0)) :
    extract_token_usage raw = Json.obj []
    ∧ extract_token_usage_from_raw_response raw = none := by
  simp only [String.toList] at h1 hp hc ht hz
  constructor
  · simp [extract_token_usage, String.toList, tokenUsageS2, h1, hp, hc, ht, hz]
  · simp [extract_token_usage_from_raw_response, String.toList, tokenUsageS2, hp, hc, ht, hz]

/-- Witness for the amended C9 statement at the spaced-colon all-zero
report. -/
theorem all_zero_line_scan_yields_empty_usage_witness :
    extract_token_usage zeroSpacedUsageText = Json.obj []
    ∧ extract_token_usage_from_raw_response zeroSpacedUsageText = none :=
  all_zero_line_scan_yields_empty_usage zeroSpacedUsageText rfl rfl rfl rfl rfl rfl

/-- C5 counterexample: the first block carrying an override
(`prompt_token_cost = 2`) does not fix the rate for the batch: a later
block carrying `prompt_token_cost = 3` displaces it, because the scan
only stops once both rates differ from the defaults. -/
theorem rate_override_displaced_by_later_block :
    unified_rate_scan [promptOverrideBlock1, promptOverrideBlock2]
      = ((3 : ℚ), completionTokenRateDefault)
    ∧ (3 : ℚ) ≠ (2 : ℚ) := by
  constructor
  · simp [unified_rate_scan, unified_rate_scan_go, promptOverrideBlock1, promptOverrideBlock2,
      lookupKey, promptTokenRateDefault, completionTokenRateDefault]
  · norm_num

/-- C5 amended: when the first scanned block supplies both override keys
with values that differ from the respective defaults, those two values
are the rates used for the remainder of the batch, whatever the later
blocks carry; a block supplying only one override leaves the scan running
and can be displaced later. -/
theorem rate_scan_first_both_override (u : ParsedBlock) (rest : List ParsedBlock) (vp vc : ℚ)
    (hp : lookupKey "prompt_token_cost" u.parsed_usage = some vp)
    (hc : lookupKey "completion_token_cost" u.parsed_usage = some vc)
    (hp0 : vp ≠ promptTokenRateDefault) (hc0 : vc ≠ completionTokenRateDefault) :
    unified_rate_scan (u :: rest) = (vp, vc) := by
  simp [unified_rate_scan, unified_rate_scan_go, hp, hc, hp0, hc0]

/-- Witness for the amended C5 statement: a both-keys override block
followed by a would-be displacer. -/
theorem rate_scan_first_both_override_witness :
    unified_rate_scan [bothOverrideBlock, promptOverrideBlock2] = ((2 : ℚ), (3 : ℚ)) :=
  rate_scan_first_both_override bothOverrideBlock [promptOverrideBlock2] 2 3 rfl rfl
    (by norm_num [promptTokenRateDefault]) (by norm_num [completionTokenRateDefault])

/-- C10: if some declared task has an empty description, the first
matching loop accepts every block (the empty fragment produced by
splitting the empty description on a dot is contained in every hint), so
task matching always returns a task identifier; and the winner is the
first task in declaration order passing the containment test. -/
theorem empty_description_always_matches (tasks : List (String × CrewAITask)) (block : BlockV2)
    (h : ∃ p ∈ tasks, p.2.description = "") :
    (match_task_to_block tasks block).isSome = true
    ∧ match_task_to_block tasks block
        = (tasks.find? (first_loop_test (pyLower block.task_hint.toList))).map Prod.fst := by
  obtain ⟨p, hmem, hdesc⟩ := h
  have htest : first_loop_test (pyLower block.task_hint.toList) p = true := by
    unfold first_loop_test
    rw [hdesc]
    simp [pyLower, splitOnChar, containsSubList_nil]
  have hfind : (tasks.find? (first_loop_test (pyLower block.task_hint.toList))).isSome := by
    rw [List.find?_isSome]
    exact ⟨p, hmem, htest⟩
  obtain ⟨q, hq⟩ := Option.isSome_iff_exists.mp hfind
  simp only [String.toList] at hq
  refine ⟨?_, ?_⟩ <;> simp [match_task_to_block, String.toList, hq]

/-- Witness for C10 at a two-task map whose second task has an empty
description and a block with an unrelated hint. -/
theorem empty_description_always_matches_witness :
    (match_task_to_block mtTasks mtBlock).isSome = true
    ∧ match_task_to_block mtTasks mtBlock
        = (mtTasks.find? (first_loop_test (pyLower mtBlock.task_hint.toList))).map Prod.fst :=
  empty_description_always_matches mtTasks mtBlock
    ⟨("t2", { task_id := "t2", description := "" }), by decide, rfl⟩

theorem lookupKey_updateFirst {β : Type} (k t : String) (f : β → β) (m : List (String × β)) :
    lookupKey k (updateFirst t f m) =
      if k = t then (lookupKey k m).map f else lookupKey k m := by
  induction m with
  | nil => simp [updateFirst, lookupKey]
  | cons p rest ih =>
    obtain ⟨k2, v⟩ := p
    by_cases h2 : k2 = t
    · subst h2
      by_cases hk : k2 = k
      · subst hk
        simp [updateFirst, lookupKey]
      · have hk2 : ¬(k = k2) := fun hh => hk hh.symm
        simp [updateFirst, lookupKey, hk, hk2]
    · by_cases hk : k2 = k
      · subst hk
        have hkt : ¬(k2 = t) := h2
        simp [updateFirst, lookupKey, h2, hkt]
      · simp [updateFirst, lookupKey, h2, hk, ih]

theorem addEdge_isSome (t d k : String) (m : List (String × WorkflowNode)) :
    (lookupKey k (addEdge t d m)).isSome = (lookupKey k m).isSome := by
  rw [addEdge, lookupKey_updateFirst, lookupKey_updateFirst]
  split_ifs <;> simp

theorem mem_pySetAdd (y x : String) (l : List String) :
    y ∈ pySetAdd x l ↔ (y = x ∨ y ∈ l) := by
  unfold pySetAdd
  split_ifs with h
  · constructor
    · exact fun hy => Or.inr hy
    · rintro (rfl | hy)
      · exact h
      · exact hy
  · simp [List.mem_append]
    tauto

theorem lookup_addEdge_node (t d z : String) (m : List (String × WorkflowNode))
    (n2 : WorkflowNode) (h : lookupKey z (addEdge t d m) = some n2) :
    ∃ n0, lookupKey z m = some n0
      ∧ n2.dependents = (if z = d then pySetAdd t n0.dependents else n0.dependents)
      ∧ n2.dependencies = (if z = t then pySetAdd d n0.dependencies else n0.dependencies) := by
  rw [addEdge, lookupKey_updateFirst, lookupKey_updateFirst] at h
  by_cases hzd : z = d
  · obtain rfl := hzd
    by_cases hzt : z = t
    · obtain rfl := hzt
      rw [if_pos rfl, if_pos rfl, Option.map_map, Option.map_eq_some'] at h
      obtain ⟨n0, h0, h1⟩ := h
      subst h1
      refine ⟨n0, h0, ?_, ?_⟩ <;>
        simp [add_dependent, add_dependency, Function.comp]
    · rw [if_pos rfl, if_neg hzt, Option.map_eq_some'] at h
      obtain ⟨n0, h0, h1⟩ := h
      subst h1
      refine ⟨n0, h0, ?_, ?_⟩ <;>
        simp [add_dependent, hzt]
  · by_cases hzt : z = t
    · obtain rfl := hzt
      rw [if_neg hzd, if_pos rfl, Option.map_eq_some'] at h
      obtain ⟨n0, h0, h1⟩ := h
      subst h1
      refine ⟨n0, h0, ?_, ?_⟩ <;>
        simp [add_dependency, hzd]
    · rw [if_neg hzd, if_neg hzt] at h
      refine ⟨n2, h, ?_, ?_⟩ <;>
        simp [hzd, hzt]

theorem addEdge_symEdges (t d : String) (m : List (String × WorkflowNode))
    (ht : (lookupKey t m).isSome = true) (hd : (lookupKey d m).isSome = true)
    (hs : SymEdges m) : SymEdges (addEdge t d m) := by
  intro x y nx ny hx hy
  obtain ⟨n0x, h0x, hdepx, _hdepsx⟩ := lookup_addEdge_node t d x m nx hx
  obtain ⟨n0y, h0y, _hdepy, hdepsy⟩ := lookup_addEdge_node t d y m ny hy
  have base := hs x y n0x n0y h0x h0y
  rw [hdepx, hdepsy]
  by_cases hxd : x = d
  · obtain rfl := hxd
    by_cases hyt : y = t
    · obtain rfl := hyt
      rw [if_pos rfl, if_pos rfl, mem_pySetAdd, mem_pySetAdd]
      tauto
    · rw [if_pos rfl, if_neg hyt, mem_pySetAdd]
      tauto
  · by_cases hyt : y = t
    · obtain rfl := hyt
      rw [if_neg hxd, if_pos rfl, mem_pySetAdd]
      tauto
    · rw [if_neg hxd, if_neg hyt]
      exact base

theorem addEdge_noDangling (t d : String) (m : List (String × WorkflowNode))
    (ht : (lookupKey t m).isSome = true) (hd : (lookupKey d m).isSome = true)
    (h : NoDangling m) : NoDangling (addEdge t d m) := by
  intro x nx hx
  obtain ⟨n0, h0, hdept, hdeps⟩ := lookup_addEdge_node t d x m nx hx
  have base := h x n0 h0
  constructor
  · intro e he
    rw [hdeps] at he
    rw [addEdge_isSome]
    by_cases hxt : x = t
    · rw [if_pos hxt, mem_pySetAdd] at he
      rcases he with rfl | he
      · exact hd
      · exact base.1 e he
    · rw [if_neg hxt] at he
      exact base.1 e he
  · intro e he
    rw [hdept] at he
    rw [addEdge_isSome]
    by_cases hxd : x = d
    · rw [if_pos hxd, mem_pySetAdd] at he
      rcases he with rfl | he
      · exact ht
      · exact base.2 e he
    · rw [if_neg hxd] at he
      exact base.2 e he

theorem addDeps_preserve (P : List (String × WorkflowNode) → Prop)
    (hP : ∀ t d m, (lookupKey t m).isSome = true → (lookupKey d m).isSome = true →
      P m → P (addEdge t d m)) :
    ∀ (tid : String) (deps : List String) (m : List (String × WorkflowNode)),
      (lookupKey tid m).isSome = true → P m → P (addDeps tid deps m) := by
  intro tid deps
  induction deps with
  | nil => intro m _ hm; exact hm
  | cons dep rest ih =>
    intro m htid hm
    simp only [addDeps, List.foldl_cons] at *
    by_cases hdep : (lookupKey dep m).isSome = true
    · rw [if_pos hdep]
      exact ih (addEdge tid dep m) (by rw [addEdge_isSome]; exact htid) (hP tid dep m htid hdep hm)
    · rw [if_neg hdep]
      exact ih m htid hm

theorem addDeps_isSome (tid : String) (deps : List String) (k : String) :
    ∀ m, (lookupKey k (addDeps tid deps m)).isSome = (lookupKey k m).isSome := by
  induction deps with
  | nil => intro m; rfl
  | cons dep rest ih =>
    intro m
    simp only [addDeps, List.foldl_cons] at *
    by_cases hdep : (lookupKey dep m).isSome = true
    · rw [if_pos hdep, ih, addEdge_isSome]
    · rw [if_neg hdep, ih]

theorem reconstruct_preserve (P : List (String × WorkflowNode) → Prop)
    (hP : ∀ t d m, (lookupKey t m).isSome = true → (lookupKey d m).isSome = true →
      P m → P (addEdge t d m)) (blocks : List EnhancedParsedBlock)
    (tasks : List (String × CrewAITask)) (hInit : P (initNodes blocks)) :
    P (reconstruct blocks tasks) := by
  unfold reconstruct
  suffices aux : ∀ (ts : List (String × CrewAITask)) (m : List (String × WorkflowNode)), P m →
      P (ts.foldl (fun m2 p =>
        if (lookupKey p.1 m2).isSome = true then addDeps p.1 p.2.dependencies m2 else m2) m) by
    exact aux tasks (initNodes blocks) hInit
  intro ts
  induction ts with
  | nil => intro m hm; exact hm
  | cons p rest ih =>
    intro m hm
    simp only [List.foldl_cons]
    by_cases hp : (lookupKey p.1 m).isSome = true
    · rw [if_pos hp]
      exact ih _ (addDeps_preserve P hP p.1 p.2.dependencies m hp hm)
    · rw [if_neg hp]
      exact ih m hm

theorem lookup_mkNodes (l : List (String × List EnhancedParsedBlock)) (x : String)
    (nx : WorkflowNode)
    (h : lookupKey x (l.map (fun p => (p.1, (⟨p.1, p.2, [], []⟩ : WorkflowNode)))) = some nx) :
    nx.dependencies = [] ∧ nx.dependents = [] := by
  induction l with
  | nil => cases h
  | cons p rest ih =>
    simp only [List.map_cons, lookupKey] at h
    split at h
    · injection h with h2
      subst h2
      exact ⟨rfl, rfl⟩
    · exact ih h

theorem initNodes_symEdges (blocks : List EnhancedParsedBlock) : SymEdges (initNodes blocks) := by
  intro x y nx ny hx hy
  have ex := lookup_mkNodes (task_blocks blocks) x nx hx
  have ey := lookup_mkNodes (task_blocks blocks) y ny hy
  rw [ex.2, ey.1]
  simp

theorem initNodes_noDangling (blocks : List EnhancedParsedBlock) : NoDangling (initNodes blocks) := by
  intro x nx hx
  have ex := lookup_mkNodes (task_blocks blocks) x nx hx
  rw [ex.1, ex.2]
  simp

/-- C7: the workflow graph built by `reconstruct` has no dangling edges:
whenever a node of the returned mapping names `d` among its dependencies
(or dependents), `d` is itself a key of the mapping; a declared
dependency naming a task with no matched blocks is silently skipped, and
construction is a total function (it raises no error). -/
theorem reconstruct_no_dangling_edges (blocks : List EnhancedParsedBlock)
    (tasks : List (String × CrewAITask)) (x : String) (nx : WorkflowNode)
    (h : lookupKey x (reconstruct blocks tasks) = some nx) :
    (∀ d ∈ nx.dependencies, (lookupKey d (reconstruct blocks tasks)).isSome = true)
    ∧ (∀ d ∈ nx.dependents, (lookupKey d (reconstruct blocks tasks)).isSome = true) :=
  reconstruct_preserve NoDangling addEdge_noDangling blocks tasks
    (initNodes_noDangling blocks) x nx h

/-- Witness for C7: in the two-task graph whose first task declares a
dependency on `b` and on the undeclared `ghost`, the node of `a` carries
the single dependency `b`, which is a key of the mapping. -/
theorem reconstruct_no_dangling_edges_witness :
    (∀ d ∈ wfNodeA.dependencies, (lookupKey d (reconstruct wfBlocks wfTasks)).isSome = true)
    ∧ (∀ d ∈ wfNodeA.dependents, (lookupKey d (reconstruct wfBlocks wfTasks)).isSome = true) :=
  reconstruct_no_dangling_edges wfBlocks wfTasks "a" wfNodeA (by decide)

/-- C8: after `reconstruct` returns, dependency and dependent sets are
symmetric: for any two nodes `x` and `y` of the returned mapping,
`y` is among the dependents of `x` exactly when `x` is among the
dependencies of `y`. -/
theorem reconstruct_dependency_dependent_symmetry (blocks : List EnhancedParsedBlock)
    (tasks : List (String × CrewAITask)) (x y : String) (nx ny : WorkflowNode)
    (hx : lookupKey x (reconstruct blocks tasks) = some nx)
    (hy : lookupKey y (reconstruct blocks tasks) = some ny) :
    (y ∈ nx.dependents ↔ x ∈ ny.dependencies) :=
  reconstruct_preserve SymEdges addEdge_symEdges blocks tasks
    (initNodes_symEdges blocks) x y nx ny hx hy

/-- Witness for C8 on the two-task graph: `a` is a dependent of `b` and
`b` is a dependency of `a`. -/
theorem reconstruct_dependency_dependent_symmetry_witness :
    ("a" ∈ wfNodeB.dependents ↔ "b" ∈ wfNodeA.dependencies) :=
  reconstruct_dependency_dependent_symmetry wfBlocks wfTasks "b" "a" wfNodeB wfNodeA
    (by decide) (by decide)

theorem sorted_key_nodup_eq :
    ∀ (l1 l2 : List (ParsedBlock × Nat)), l1.Perm l2 →
      l1.Sorted sndLe → l2.Sorted sndLe → (l1.map Prod.snd).Nodup → l1 = l2 := by
  intro l1
  induction l1 with
  | nil =>
    intro l2 hp _ _ _
    exact (List.Perm.eq_nil hp.symm).symm
  | cons a t1 ih =>
    intro l2 hp h1 h2 hnd
    cases l2 with
    | nil => exact (List.cons_ne_nil a t1 hp.eq_nil).elim
    | cons b t2 =>
      have hab : a = b := by
        have hmem : a ∈ b :: t2 := hp.subset (List.mem_cons_self a t1)
        rcases List.mem_cons.mp hmem with h | hmem2
        · exact h
        · have hmemb : b ∈ a :: t1 := hp.symm.subset (List.mem_cons_self b t2)
          rcases List.mem_cons.mp hmemb with h | hmemb2
          · exact h.symm
          · have hba : b.2 ≤ a.2 := (List.sorted_cons.mp h2).1 a hmem2
            have hab2 : a.2 ≤ b.2 := (List.sorted_cons.mp h1).1 b hmemb2
            have hkey : a.2 = b.2 := Nat.le_antisymm hab2 hba
            have hin : a.2 ∈ t1.map Prod.snd := by
              rw [hkey]
              exact List.mem_map_of_mem Prod.snd hmemb2
            have hndc : (a.2 :: t1.map Prod.snd).Nodup := by
              rw [List.map_cons] at hnd
              exact hnd
            exact absurd hin (List.nodup_cons.mp hndc).1
      subst hab
      have hp2 := hp.cons_inv
      have h1t := (List.sorted_cons.mp h1).2
      have h2t := (List.sorted_cons.mp h2).2
      have hndt : (t1.map Prod.snd).Nodup := by
        rw [List.map_cons] at hnd
        exact (List.nodup_cons.mp hnd).2
      rw [ih t2 hp2 h1t h2t hndt]

/-- C6 amended: latency computation is invariant under permutations of
the input blocks provided the parseable start timestamps are pairwise
distinct; with duplicate timestamps Python's stable sort makes the result
depend on input order.  Sorted blocks receive the consecutive differences
and blocks without a parseable timestamp receive no latency, by
construction of `unified_times` and `consecutiveLatencies`. -/
theorem latency_perm_invariant_of_distinct_timestamps (l l2 : List ParsedBlock)
    (hp : l.Perm l2) (hnd : ((unified_times l).map Prod.snd).Nodup) :
    unified_response_times l2 = unified_response_times l := by
  have hperm : (unified_times l).Perm (unified_times l2) := List.Perm.filterMap _ hp
  have hs1 : (List.insertionSort sndLe (unified_times l)).Sorted sndLe :=
    List.sorted_insertionSort sndLe (unified_times l)
  have hs2 : (List.insertionSort sndLe (unified_times l2)).Sorted sndLe :=
    List.sorted_insertionSort sndLe (unified_times l2)
  have hsp : (List.insertionSort sndLe (unified_times l)).Perm
      (List.insertionSort sndLe (unified_times l2)) :=
    ((List.perm_insertionSort sndLe (unified_times l)).trans hperm).trans
      (List.perm_insertionSort sndLe (unified_times l2)).symm
  have hnds : ((List.insertionSort sndLe (unified_times l)).map Prod.snd).Nodup := by
    have hmp := (List.perm_insertionSort sndLe (unified_times l)).map Prod.snd
    exact hmp.nodup_iff.mpr hnd
  have heq := sorted_key_nodup_eq _ _ hsp hs1 hs2 hnds
  simp only [unified_response_times]
  rw [heq]

/-- C6 counterexample: with two blocks sharing the start timestamp, the
permutation exchanging them changes which block receives the zero
latency, so latency computation is not invariant under permutation of
the input sequence. -/
theorem latency_not_permutation_invariant :
    ([lateBlockA, lateBlockB, lateBlockC].Perm [lateBlockB, lateBlockA, lateBlockC])
    ∧ unified_response_times [lateBlockA, lateBlockB, lateBlockC]
        ≠ unified_response_times [lateBlockB, lateBlockA, lateBlockC] := by
  constructor
  · decide
  · decide

/-- Witness for the amended C6 statement on two blocks with distinct
parseable timestamps. -/
theorem latency_perm_invariant_of_distinct_timestamps_witness :
    unified_response_times [lateBlockC, lateBlockA]
      = unified_response_times [lateBlockA, lateBlockC] :=
  latency_perm_invariant_of_distinct_timestamps [lateBlockA, lateBlockC]
    [lateBlockC, lateBlockA] (by decide) (by decide)

theorem forall₂_beginsWith_optmap (a : List BlockV2) (o : Option BlockV2) (ms : List String)
    (g : BlockV2 → BlockV2)
    (hg : ∀ b m, beginsWithMarkerLine b m → beginsWithMarkerLine (g b) m)
    (h : List.Forall₂ beginsWithMarkerLine (a ++ o.toList) ms) :
    List.Forall₂ beginsWithMarkerLine (a ++ (o.map g).toList) ms := by
  cases o with
  | none => exact h
  | some cb =>
    have h2 : List.Forall₂ beginsWithMarkerLine (a ++ [cb]) ms := h
    show List.Forall₂ beginsWithMarkerLine (a ++ [g cb]) ms
    clear h
    induction a generalizing ms with
    | nil =>
      cases h2 with
      | cons hP htail =>
        cases htail
        exact List.Forall₂.cons (hg cb _ hP) List.Forall₂.nil
    | cons x xs ih =>
      cases h2 with
      | cons hx htail => exact List.Forall₂.cons hx (ih _ htail)

theorem beginsWith_req_eq (g : BlockV2 → BlockV2)
    (hg : ∀ b, (g b).litellm_request = b.litellm_request) :
    ∀ b m, beginsWithMarkerLine b m → beginsWithMarkerLine (g b) m := by
  rintro b m ⟨t, ht⟩
  exact ⟨t, by rw [hg, ht]⟩

theorem beginsWith_req_append (line : String) :
    ∀ b m, beginsWithMarkerLine b m →
      beginsWithMarkerLine { b with litellm_request := b.litellm_request ++ line ++ "\n" } m := by
  rintro b m ⟨t, ht⟩
  refine ⟨t ++ line ++ "\n", ?_⟩
  show b.litellm_request ++ line ++ "\n" = m ++ "\n" ++ (t ++ line ++ "\n")
  rw [ht]
  simp [String.append_assoc]

theorem segStepV2_marker_inv (st : SegStateV2) (line : String) (st2 : SegStateV2)
    (ms : List String) (h : segStepV2 st line = Except.ok st2)
    (hinv : List.Forall₂ beginsWithMarkerLine (st.blocks ++ st.current.toList) ms) :
    List.Forall₂ beginsWithMarkerLine (st2.blocks ++ st2.current.toList)
      (ms ++ (if containsSub line "Request to litellm:" = true then [line] else [])) := by
  unfold segStepV2 at h
  by_cases hm : containsSub line "Request to litellm:" = true
  · rw [if_pos hm] at h
    rw [if_pos hm]
    injection h with h2
    subst h2
    have hb : (match st.current.map (fun cb =>
        match timestampMatch line with
        | some t => { cb with end_time := some t }
        | none => cb) with
      | some cb => st.blocks ++ [cb]
      | none => st.blocks) = st.blocks ++ (st.current.map (fun cb =>
        match timestampMatch line with
        | some t => { cb with end_time := some t }
        | none => cb)).toList := by
      cases st.current <;> simp
    show List.Forall₂ beginsWithMarkerLine (_ ++ [_]) (ms ++ [line])
    rw [hb]
    refine List.rel_append ?_ ?_
    · refine forall₂_beginsWith_optmap st.blocks st.current ms _ ?_ hinv
      refine beginsWith_req_eq _ ?_
      intro b
      cases timestampMatch line <;> rfl
    · refine List.Forall₂.cons ⟨"", ?_⟩ List.Forall₂.nil
      show ({ start_time := timestampMatch line,
              litellm_request := line ++ "\n" } : BlockV2).litellm_request
        = line ++ "\n" ++ ""
      rw [String.append_empty]
  · rw [if_neg hm] at h
    rw [if_neg hm, List.append_nil]
    by_cases hc : (containsSub line "response_cost:" && st.current.isSome) = true
    · rw [if_pos hc] at h
      cases hcr : searchCostRate line.toList with
      | some num =>
        simp only [hcr] at h
        by_cases hok : pyFloatOk num = true
        · rw [if_pos hok] at h
          injection h with h2
          subst h2
          exact forall₂_beginsWith_optmap st.blocks st.current ms _
            (beginsWith_req_eq _ (fun b => rfl)) hinv
        · rw [if_neg hok] at h
          cases h
      | none =>
        simp only [hcr] at h
        injection h with h2
        subst h2
        exact hinv
    · rw [if_neg hc] at h
      by_cases hr : (containsSub line "RAW RESPONSE:" && st.current.isSome) = true
      · rw [if_pos hr] at h
        injection h with h2
        subst h2
        exact forall₂_beginsWith_optmap st.blocks st.current ms _
          (beginsWith_req_eq _ (fun b => rfl)) hinv
      · rw [if_neg hr] at h
        by_cases ha : (containsSub line "APIStatusError" && st.current.isSome) = true
        · rw [if_pos ha] at h
          injection h with h2
          subst h2
          exact forall₂_beginsWith_optmap st.blocks st.current ms _
            (beginsWith_req_eq _ (fun b => rfl)) hinv
        · rw [if_neg ha] at h
          injection h with h2
          subst h2
          by_cases h1 : (st.insideRequest && st.current.isSome) = true
          · rw [if_pos h1]
            by_cases h2c : ((
                { st with current := st.current.map (fun cb =>
                    { cb with litellm_request := cb.litellm_request ++ line ++ "\n" }) }
                  : SegStateV2).insideResponse
                && (st.current.map (fun cb =>
                    { cb with litellm_request := cb.litellm_request ++ line ++ "\n" })).isSome) = true
            · rw [if_pos h2c]
              exact forall₂_beginsWith_optmap st.blocks _ ms _
                (beginsWith_req_eq _ (fun b => rfl))
                (forall₂_beginsWith_optmap st.blocks st.current ms _
                  (beginsWith_req_append line) hinv)
            · rw [if_neg h2c]
              exact forall₂_beginsWith_optmap st.blocks st.current ms _
                (beginsWith_req_append line) hinv
          · rw [if_neg h1]
            by_cases h2c : (st.insideResponse && st.current.isSome) = true
            · rw [if_pos h2c]
              exact forall₂_beginsWith_optmap st.blocks st.current ms _
                (beginsWith_req_eq _ (fun b => rfl)) hinv
            · rw [if_neg h2c]
              exact hinv

theorem segRunV2_marker_inv :
    ∀ (lines : List String) (st st2 : SegStateV2) (ms : List String),
      segRunV2 st lines = Except.ok st2 →
      List.Forall₂ beginsWithMarkerLine (st.blocks ++ st.current.toList) ms →
      List.Forall₂ beginsWithMarkerLine (st2.blocks ++ st2.current.toList)
        (ms ++ lines.filter (fun l => containsSub l "Request to litellm:")) := by
  intro lines
  induction lines with
  | nil =>
    intro st st2 ms h hinv
    injection h with h2
    subst h2
    simpa using hinv
  | cons l rest ih =>
    intro st st2 ms h hinv
    rw [segRunV2] at h
    cases hstep : segStepV2 st l with
    | error e =>
      rw [hstep] at h
      cases h
    | ok stm =>
      rw [hstep] at h
      have hstepinv := segStepV2_marker_inv st l stm ms hstep hinv
      have hrec := ih stm st2
        (ms ++ (if containsSub l "Request to litellm:" = true then [l] else [])) h hstepinv
      rw [List.filter_cons]
      by_cases hm : containsSub l "Request to litellm:" = true
      · rw [if_pos hm]
        rw [if_pos hm] at hrec
        simpa [List.append_assoc] using hrec
      · rw [if_neg hm]
        rw [if_neg hm] at hrec
        simpa using hrec

/-- Marker-line specification of the segmentation phase: whenever
segmentation completes without raising, it returns exactly one block per
line containing the request marker, in marker-detection order, and each
block's request text begins with the full text of its marker line.  (The
registered C1 theorem shows the call can instead raise on a degenerate
`response_cost:` line, which is why this holds only for the non-raising
runs.) -/
theorem segmentV2_blocks_per_marker (lines : List String) (bs : List BlockV2)
    (h : segmentV2 lines = Except.ok bs) :
    List.Forall₂ beginsWithMarkerLine bs
      (lines.filter (fun l => containsSub l "Request to litellm:")) := by
  unfold segmentV2 at h
  cases hrun : segRunV2 ⟨[], none, false, false⟩ lines with
  | error e =>
    rw [hrun] at h
    cases h
  | ok st =>
    rw [hrun] at h
    injection h with h2
    have hin := segRunV2_marker_inv lines ⟨[], none, false, false⟩ st [] hrun
      List.Forall₂.nil
    subst h2
    cases hcur : st.current with
    | none =>
      rw [hcur] at hin
      simpa using hin
    | some cb =>
      rw [hcur] at hin
      simpa using hin

theorem extract_block_v2_ok_request (b b2 : BlockV2)
    (h : extract_block_v2 b = Except.ok b2) : b2.litellm_request = b.litellm_request := by
  unfold extract_block_v2 at h
  simp only [] at h
  split at h
  · cases h
  · injection h with h2
    subst h2
    rfl

theorem mapM_extract_forall₂ :
    ∀ (bs bs2 : List BlockV2), bs.mapM extract_block_v2 = Except.ok bs2 →
      List.Forall₂ (fun a b => extract_block_v2 a = Except.ok b) bs bs2 := by
  intro bs
  induction bs with
  | nil =>
    intro bs2 h
    simp only [List.mapM_nil, pure] at h
    injection h with h2
    subst h2
    exact List.Forall₂.nil
  | cons a rest ih =>
    intro bs2 h
    rw [List.mapM_cons] at h
    cases ha : extract_block_v2 a with
    | error e =>
      rw [ha] at h
      cases h
    | ok b =>
      rw [ha] at h
      cases hrest : rest.mapM extract_block_v2 with
      | error e =>
        rw [hrest] at h
        cases h
      | ok brest =>
        rw [hrest] at h
        injection h with h2
        subst h2
        exact List.Forall₂.cons ha (ih brest hrest)

theorem forall₂_beginsWith_transfer :
    ∀ (mid bs2 : List BlockV2) (ms : List String),
      List.Forall₂ (fun a b => extract_block_v2 a = Except.ok b) mid bs2 →
      List.Forall₂ beginsWithMarkerLine mid ms →
      List.Forall₂ beginsWithMarkerLine bs2 ms := by
  intro mid
  induction mid with
  | nil =>
    intro bs2 ms h1 h2
    cases h1
    cases h2
    exact List.Forall₂.nil
  | cons a rest ih =>
    intro bs2 ms h1 h2
    cases h1 with
    | cons hab htail1 =>
      cases h2 with
      | cons hP htail2 =>
        refine List.Forall₂.cons ?_ (ih _ _ htail1 htail2)
        obtain ⟨t, ht⟩ := hP
        exact ⟨t, by rw [extract_block_v2_ok_request a _ hab, ht]⟩

/-- Marker-line specification of the full `parse_log_file_v2`: whenever
the call completes without raising, it yields exactly one call-block per
request-marker line (the lengths agree), in marker-detection order, and
each block's request text begins with the full text of the marker line
that opened it. -/
theorem parse_log_file_v2_blocks_per_marker (lines : List String) (bs : List BlockV2)
    (h : parse_log_file_v2 lines = Except.ok bs) :
    List.Forall₂ beginsWithMarkerLine bs
      (lines.filter (fun l => containsSub l "Request to litellm:"))
    ∧ bs.length = (lines.filter (fun l => containsSub l "Request to litellm:")).length := by
  unfold parse_log_file_v2 at h
  cases hseg : segmentV2 lines with
  | error e =>
    rw [hseg] at h
    cases h
  | ok mid =>
    simp only [hseg] at h
    have h1 := segmentV2_blocks_per_marker lines mid hseg
    have h2 := mapM_extract_forall₂ mid bs h
    have h3 := forall₂_beginsWith_transfer mid bs
      (lines.filter (fun l => containsSub l "Request to litellm:")) h2 h1
    exact ⟨h3, h3.length_eq⟩
